import Mathlib

/-!
# QwiicSerLCD

A shallow embedding of `QwiicSerLCD.cpp`, the I2C driver for the SparkFun
SerLCD display, and the properties of its command encoding.

Conventions of the embedding.

* A `byte` (`uint8_t`) is a natural number below 256.  Values of C type `int`
  or `long` that stay non-negative are natural numbers; every conversion of
  such a value to `byte` (an assignment to a `byte` variable, an argument for
  a `byte` parameter, an argument of `TwoWire::write`) is written `toByte`.
* The `TwoWire` port the driver points to is represented by the list of the
  calls it has received, oldest first.  What an operation transmits is what it
  appends to that list.
* `delay(ms)` only lets time pass: it touches neither the driver nor the port,
  so it is kept as a comment at the place where the source calls it.
* Overloads get distinct names: `write`, `write_buffer`, `write_str`;
  `specialCommand`, `specialCommand_count`; `setBacklight` (three bytes),
  `setBacklight_rgb` (packed value); and so on for the scroll and move forms.
-/

namespace SerLCD

/-! ## Machine integers -/

/-- Conversion of a non-negative integer value to `byte`: reduction modulo 256. -/
def toByte (n : Nat) : Nat := n % 256

/-- The operator `~` on a non-negative `int`, as the bit pattern of the 16-bit
two's-complement result.  The source only uses `x & ~FLAG` with `x` a byte and
converts the result to `byte`, which does not depend on the width of `int`. -/
def bitNot (n : Nat) : Nat := 0xFFFF ^^^ n

/-- Arduino core `map(x, in_min, in_max, out_min, out_max)` on `long` values:
`(x - in_min) * (out_max - out_min) / (in_max - in_min) + out_min`, with the
division of C (truncation toward zero). -/
def map (x in_min in_max out_min out_max : Int) : Int :=
  ((x - in_min) * (out_max - out_min)).tdiv (in_max - in_min) + out_min

/-- The C library `strlen`: the number of bytes before the first NUL. -/
def strlen (str : List Nat) : Nat := (str.takeWhile (fun c => c != 0)).length

/-! ## Constants of `QwiicSerLCD.h` -/

/-- Modelled from the spec: `QwiicSerLCD.h` is not among the sources; the row
offset table has `MAX_ROWS = 4` entries. -/
def MAX_ROWS : Nat := 4

/-- Modelled from the spec: `QwiicSerLCD.h` is not among the sources; the
special-command prefix is `0xFE`. -/
def SPECIAL_COMMAND : Nat := 254

/-- Modelled from the spec: `QwiicSerLCD.h` is not among the sources; the
setting-mode prefix is `0x7C` (the character `|`). -/
def SETTING_COMMAND : Nat := 0x7C

/-- Modelled from the spec: `QwiicSerLCD.h` is not among the sources; the
clear opcode is `0x2D` (the character `-`). -/
def CLEAR_COMMAND : Nat := 0x2D

/-- Modelled from the spec: `QwiicSerLCD.h` is not among the sources; the
contrast opcode is `0x18`. -/
def CONTRAST_COMMAND : Nat := 0x18

/-- Modelled from the spec: `QwiicSerLCD.h` is not among the sources; the
address opcode is `0x19`. -/
def ADDRESS_COMMAND : Nat := 0x19

/-- Modelled from the spec: `QwiicSerLCD.h` is not among the sources; the
payload is an HD44780 instruction with its standard bit flags, return home
being `0x02`. -/
def LCD_RETURNHOME : Nat := 0x02

/-- Modelled from the spec: `QwiicSerLCD.h` is not among the sources; standard
HD44780 instruction "entry mode set", `0x04`. -/
def LCD_ENTRYMODESET : Nat := 0x04

/-- Modelled from the spec: `QwiicSerLCD.h` is not among the sources; standard
HD44780 instruction "display on/off control", `0x08`. -/
def LCD_DISPLAYCONTROL : Nat := 0x08

/-- Modelled from the spec: `QwiicSerLCD.h` is not among the sources; standard
HD44780 instruction "cursor or display shift", `0x10`. -/
def LCD_CURSORSHIFT : Nat := 0x10

/-- Modelled from the spec: `QwiicSerLCD.h` is not among the sources; standard
HD44780 instruction "set DDRAM address", `0x80`. -/
def LCD_SETDDRAMADDR : Nat := 0x80

/-- Modelled from the spec: `QwiicSerLCD.h` is not among the sources; entry
mode flag I/D (text direction), `0x02`. -/
def LCD_ENTRYLEFT : Nat := 0x02

/-- Modelled from the spec: `QwiicSerLCD.h` is not among the sources; entry
mode flag S (autoscroll), `0x01`. -/
def LCD_ENTRYSHIFTINCREMENT : Nat := 0x01

/-- Modelled from the spec: `QwiicSerLCD.h` is not among the sources; display
control flag D (display on), `0x04`. -/
def LCD_DISPLAYON : Nat := 0x04

/-- Modelled from the spec: `QwiicSerLCD.h` is not among the sources; display
control flag C (cursor on), `0x02`. -/
def LCD_CURSORON : Nat := 0x02

/-- Modelled from the spec: `QwiicSerLCD.h` is not among the sources; display
control flag B (blink on), `0x01`. -/
def LCD_BLINKON : Nat := 0x01

/-- Modelled from the spec: `QwiicSerLCD.h` is not among the sources; shift
flag S/C selecting the display, `0x08`. -/
def LCD_DISPLAYMOVE : Nat := 0x08

/-- Modelled from the spec: `QwiicSerLCD.h` is not among the sources; shift
flag S/C selecting the cursor, `0x00`. -/
def LCD_CURSORMOVE : Nat := 0x00

/-- Modelled from the spec: `QwiicSerLCD.h` is not among the sources; shift
flag R/L selecting right, `0x04`. -/
def LCD_MOVERIGHT : Nat := 0x04

/-- Modelled from the spec: `QwiicSerLCD.h` is not among the sources; shift
flag R/L selecting left, `0x00`. -/
def LCD_MOVELEFT : Nat := 0x00

/-! ## The transport -/

/-- One call received by the `TwoWire` port. -/
inductive WireCall where
  | begin
  | beginTransmission (address : Nat)
  | write (data : Nat)
  | endTransmission
  deriving DecidableEq

/-- The port, as the history of the calls made on it. -/
abbrev TwoWire := List WireCall

/-- Port call `TwoWire::begin()`. -/
def TwoWire.begin (port : TwoWire) : TwoWire := port ++ [WireCall.begin]

/-- Port call `TwoWire::beginTransmission(address)`. -/
def TwoWire.beginTransmission (port : TwoWire) (address : Nat) : TwoWire :=
  port ++ [WireCall.beginTransmission address]

/-- Port call `TwoWire::write(data)`: the argument is converted to `uint8_t`. -/
def TwoWire.write (port : TwoWire) (data : Nat) : TwoWire :=
  port ++ [WireCall.write (toByte data)]

/-- Port call `TwoWire::endTransmission()`; the driver never reads its result. -/
def TwoWire.endTransmission (port : TwoWire) : TwoWire :=
  port ++ [WireCall.endTransmission]

/-! ## The driver -/

/-- The data members of the class `QwiicSerLCD`. -/
structure QwiicSerLCD where
  _i2cPort : TwoWire
  _i2cAddr : Nat
  _displayControl : Nat
  _displayMode : Nat
  deriving DecidableEq

namespace QwiicSerLCD

/-- Method `void QwiicSerLCD::init()`. -/
def init (s : QwiicSerLCD) : QwiicSerLCD :=
  let port := s._i2cPort.beginTransmission s._i2cAddr
  let port := port.write SPECIAL_COMMAND
  let port := port.write (LCD_DISPLAYCONTROL ||| s._displayControl)
  let port := port.write SPECIAL_COMMAND
  let port := port.write (LCD_ENTRYMODESET ||| s._displayMode)
  let port := port.write SETTING_COMMAND
  let port := port.write CLEAR_COMMAND
  let port := port.endTransmission
  -- delay(10)
  { s with _i2cPort := port }

/-- Method `void QwiicSerLCD::begin(TwoWire &wirePort)`. -/
def begin_port (s : QwiicSerLCD) (wirePort : TwoWire) : QwiicSerLCD :=
  let s := { s with _i2cPort := wirePort }
  let s := { s with _i2cPort := s._i2cPort.begin }
  s.init

/-- Method `void QwiicSerLCD::begin(TwoWire &wirePort, byte i2c_addr)`. -/
def begin (s : QwiicSerLCD) (wirePort : TwoWire) (i2c_addr : Nat) : QwiicSerLCD :=
  let s := { s with _i2cAddr := i2c_addr }
  s.begin_port wirePort

/-- Method `void QwiicSerLCD::command(byte command)`. -/
def command (s : QwiicSerLCD) (command : Nat) : QwiicSerLCD :=
  let port := s._i2cPort.beginTransmission s._i2cAddr
  let port := port.write SETTING_COMMAND
  let port := port.write command
  let port := port.endTransmission
  -- delay(10)
  { s with _i2cPort := port }

/-- Method `void QwiicSerLCD::specialCommand(byte command)`. -/
def specialCommand (s : QwiicSerLCD) (command : Nat) : QwiicSerLCD :=
  let port := s._i2cPort.beginTransmission s._i2cAddr
  let port := port.write SPECIAL_COMMAND
  let port := port.write command
  let port := port.endTransmission
  -- delay(10)
  { s with _i2cPort := port }

/-- Method `void QwiicSerLCD::specialCommand(byte command, byte count)`: the loop
`for (int i = 0; i < count; i++)` runs its body for `i = 0, ..., count - 1`. -/
def specialCommand_count (s : QwiicSerLCD) (command count : Nat) : QwiicSerLCD :=
  let port := s._i2cPort.beginTransmission s._i2cAddr
  let port := (List.range count).foldl
    (fun port _ => (port.write SPECIAL_COMMAND).write command) port
  let port := port.endTransmission
  -- delay(10)
  { s with _i2cPort := port }

/-- Method `void QwiicSerLCD::clear()`. -/
def clear (s : QwiicSerLCD) : QwiicSerLCD :=
  -- delay(10) after the command
  s.command CLEAR_COMMAND

/-- Method `void QwiicSerLCD::home()`. -/
def home (s : QwiicSerLCD) : QwiicSerLCD :=
  s.specialCommand LCD_RETURNHOME

/-- The local array `row_offsets` of `setCursor`. -/
def row_offsets : List Nat := [0x00, 0x40, 0x14, 0x54]

/-- Method `void QwiicSerLCD::setCursor(byte col, byte row)`.  `max` and `min` are
the Arduino macros, evaluated on `int`; each result is assigned to the `byte`
variable `row`.  The sum `col + row_offsets[row]` and the `|` are `int`
operations, and the result is converted to the `byte` parameter of
`specialCommand`. -/
def setCursor (s : QwiicSerLCD) (col row : Nat) : QwiicSerLCD :=
  let row := toByte (max 0 row)
  let row := toByte (min row (MAX_ROWS - 1))
  s.specialCommand (toByte (LCD_SETDDRAMADDR ||| (col + row_offsets.getD row 0)))

/-- Method `void QwiicSerLCD::createChar(byte location, byte charmap[])`: the loop
writes `charmap[0]`, ..., `charmap[7]`. -/
def createChar (s : QwiicSerLCD) (location : Nat) (charmap : List Nat) : QwiicSerLCD :=
  let location := toByte (location &&& 0x7)
  let port := s._i2cPort.beginTransmission s._i2cAddr
  let port := port.write SETTING_COMMAND
  let port := port.write (27 + location)
  let port := (List.range 8).foldl (fun port i => port.write (charmap.getD i 0)) port
  let port := port.endTransmission
  -- delay(10)
  { s with _i2cPort := port }

/-- Method `void QwiicSerLCD::writeChar(byte location)`. -/
def writeChar (s : QwiicSerLCD) (location : Nat) : QwiicSerLCD :=
  let location := toByte (location &&& 0x7)
  s.command (toByte (35 + location))

/-- Method `size_t QwiicSerLCD::write(uint8_t b)`; the source has no `return`
statement, so only the effect is modelled. -/
def write (s : QwiicSerLCD) (b : Nat) : QwiicSerLCD :=
  let port := s._i2cPort.beginTransmission s._i2cAddr
  let port := port.write b
  let port := port.endTransmission
  -- delay(10)
  { s with _i2cPort := port }

/-- The loop `while (size--) { _i2cPort->write(*buffer++); n++; }` of
`write(const uint8_t *buffer, size_t size)`: the state is the remaining
`size`, the bytes from `buffer` on, the port and the counter `n`. -/
def write_loop : Nat → List Nat → TwoWire → Nat → TwoWire × Nat
  | 0, _, port, n => (port, n)
  | size + 1, buffer, port, n =>
      write_loop size buffer.tail (port.write (buffer.headD 0)) (n + 1)

/-- Method `size_t QwiicSerLCD::write(const uint8_t *buffer, size_t size)`; `buffer`
is the memory from the pointer on. -/
def write_buffer (s : QwiicSerLCD) (buffer : List Nat) (size : Nat) : QwiicSerLCD × Nat :=
  let n := 0
  let port := s._i2cPort.beginTransmission s._i2cAddr
  let (port, n) := write_loop size buffer port n
  let port := port.endTransmission
  -- delay(10)
  ({ s with _i2cPort := port }, n)

/-- Method `size_t QwiicSerLCD::write(const char *str)`; `none` is the null pointer,
`some str` a pointer to the bytes `str`. -/
def write_str (s : QwiicSerLCD) (str : Option (List Nat)) : QwiicSerLCD × Nat :=
  match str with
  | none => (s, 0)
  | some str => s.write_buffer str (strlen str)

/-- Method `void QwiicSerLCD::noDisplay()`. -/
def noDisplay (s : QwiicSerLCD) : QwiicSerLCD :=
  let s := { s with _displayControl := toByte (s._displayControl &&& bitNot LCD_DISPLAYON) }
  s.specialCommand (toByte (LCD_DISPLAYCONTROL ||| s._displayControl))

/-- Method `void QwiicSerLCD::display()`. -/
def display (s : QwiicSerLCD) : QwiicSerLCD :=
  let s := { s with _displayControl := toByte (s._displayControl ||| LCD_DISPLAYON) }
  s.specialCommand (toByte (LCD_DISPLAYCONTROL ||| s._displayControl))

/-- Method `void QwiicSerLCD::noCursor()`. -/
def noCursor (s : QwiicSerLCD) : QwiicSerLCD :=
  let s := { s with _displayControl := toByte (s._displayControl &&& bitNot LCD_CURSORON) }
  s.specialCommand (toByte (LCD_DISPLAYCONTROL ||| s._displayControl))

/-- Method `void QwiicSerLCD::cursor()`. -/
def cursor (s : QwiicSerLCD) : QwiicSerLCD :=
  let s := { s with _displayControl := toByte (s._displayControl ||| LCD_CURSORON) }
  s.specialCommand (toByte (LCD_DISPLAYCONTROL ||| s._displayControl))

/-- Method `void QwiicSerLCD::noBlink()`. -/
def noBlink (s : QwiicSerLCD) : QwiicSerLCD :=
  let s := { s with _displayControl := toByte (s._displayControl &&& bitNot LCD_BLINKON) }
  s.specialCommand (toByte (LCD_DISPLAYCONTROL ||| s._displayControl))

/-- Method `void QwiicSerLCD::blink()`. -/
def blink (s : QwiicSerLCD) : QwiicSerLCD :=
  let s := { s with _displayControl := toByte (s._displayControl ||| LCD_BLINKON) }
  s.specialCommand (toByte (LCD_DISPLAYCONTROL ||| s._displayControl))

/-- Method `void QwiicSerLCD::scrollDisplayLeft()`. -/
def scrollDisplayLeft (s : QwiicSerLCD) : QwiicSerLCD :=
  s.specialCommand (toByte (LCD_CURSORSHIFT ||| LCD_DISPLAYMOVE ||| LCD_MOVELEFT))

/-- Method `void QwiicSerLCD::scrollDisplayLeft(byte count)`. -/
def scrollDisplayLeft_count (s : QwiicSerLCD) (count : Nat) : QwiicSerLCD :=
  s.specialCommand_count (toByte (LCD_CURSORSHIFT ||| LCD_DISPLAYMOVE ||| LCD_MOVELEFT)) count

/-- Method `void QwiicSerLCD::scrollDisplayRight()`. -/
def scrollDisplayRight (s : QwiicSerLCD) : QwiicSerLCD :=
  s.specialCommand (toByte (LCD_CURSORSHIFT ||| LCD_DISPLAYMOVE ||| LCD_MOVERIGHT))

/-- Method `void QwiicSerLCD::scrollDisplayRight(byte count)`. -/
def scrollDisplayRight_count (s : QwiicSerLCD) (count : Nat) : QwiicSerLCD :=
  s.specialCommand_count (toByte (LCD_CURSORSHIFT ||| LCD_DISPLAYMOVE ||| LCD_MOVERIGHT)) count

/-- Method `void QwiicSerLCD::moveCursorLeft()`. -/
def moveCursorLeft (s : QwiicSerLCD) : QwiicSerLCD :=
  s.specialCommand (toByte (LCD_CURSORSHIFT ||| LCD_CURSORMOVE ||| LCD_MOVELEFT))

/-- Method `void QwiicSerLCD::moveCursorLeft(byte count)`. -/
def moveCursorLeft_count (s : QwiicSerLCD) (count : Nat) : QwiicSerLCD :=
  s.specialCommand_count (toByte (LCD_CURSORSHIFT ||| LCD_CURSORMOVE ||| LCD_MOVELEFT)) count

/-- Method `void QwiicSerLCD::moveCursorRight()`. -/
def moveCursorRight (s : QwiicSerLCD) : QwiicSerLCD :=
  s.specialCommand (toByte (LCD_CURSORSHIFT ||| LCD_CURSORMOVE ||| LCD_MOVERIGHT))

/-- Method `void QwiicSerLCD::moveCursorRight(byte count)`. -/
def moveCursorRight_count (s : QwiicSerLCD) (count : Nat) : QwiicSerLCD :=
  s.specialCommand_count (toByte (LCD_CURSORSHIFT ||| LCD_CURSORMOVE ||| LCD_MOVERIGHT)) count

/-- Method `void QwiicSerLCD::setBacklight(byte r, byte g, byte b)`.  The
three sums are `long` values converted to `byte`; `map` never returns a
negative number on a byte, so `Int.toNat` loses nothing. -/
def setBacklight (s : QwiicSerLCD) (r g b : Nat) : QwiicSerLCD :=
  let red := toByte (128 + map r 0 255 0 29).toNat
  let green := toByte (158 + map g 0 255 0 29).toNat
  let blue := toByte (188 + map b 0 255 0 29).toNat
  let port := s._i2cPort.beginTransmission s._i2cAddr
  let s := { s with _displayControl := toByte (s._displayControl &&& bitNot LCD_DISPLAYON) }
  let port := port.write SPECIAL_COMMAND
  let port := port.write (LCD_DISPLAYCONTROL ||| s._displayControl)
  let port := port.write SETTING_COMMAND
  let port := port.write red
  let port := port.write SETTING_COMMAND
  let port := port.write green
  let port := port.write SETTING_COMMAND
  let port := port.write blue
  let s := { s with _displayControl := toByte (s._displayControl ||| LCD_DISPLAYON) }
  let port := port.write SPECIAL_COMMAND
  let port := port.write (LCD_DISPLAYCONTROL ||| s._displayControl)
  let port := port.endTransmission
  -- delay(50)
  { s with _i2cPort := port }

/-- Method `void QwiicSerLCD::setBacklight(unsigned long rgb)`. -/
def setBacklight_rgb (s : QwiicSerLCD) (rgb : Nat) : QwiicSerLCD :=
  let r := toByte ((rgb >>> 16) &&& 0x0000FF)
  let g := toByte ((rgb >>> 8) &&& 0x0000FF)
  let b := toByte (rgb &&& 0x0000FF)
  s.setBacklight r g b

/-- Method `void QwiicSerLCD::leftToRight()`. -/
def leftToRight (s : QwiicSerLCD) : QwiicSerLCD :=
  let s := { s with _displayMode := toByte (s._displayMode ||| LCD_ENTRYLEFT) }
  s.specialCommand (toByte (LCD_ENTRYMODESET ||| s._displayMode))

/-- Method `void QwiicSerLCD::rightToLeft()`. -/
def rightToLeft (s : QwiicSerLCD) : QwiicSerLCD :=
  let s := { s with _displayMode := toByte (s._displayMode &&& bitNot LCD_ENTRYLEFT) }
  s.specialCommand (toByte (LCD_ENTRYMODESET ||| s._displayMode))

/-- Method `void QwiicSerLCD::autoscroll()`. -/
def autoscroll (s : QwiicSerLCD) : QwiicSerLCD :=
  let s := { s with _displayMode := toByte (s._displayMode ||| LCD_ENTRYSHIFTINCREMENT) }
  s.specialCommand (toByte (LCD_ENTRYMODESET ||| s._displayMode))

/-- Method `void QwiicSerLCD::noAutoscroll()`. -/
def noAutoscroll (s : QwiicSerLCD) : QwiicSerLCD :=
  let s := { s with _displayMode := toByte (s._displayMode &&& bitNot LCD_ENTRYSHIFTINCREMENT) }
  s.specialCommand (toByte (LCD_ENTRYMODESET ||| s._displayMode))

/-- Method `void QwiicSerLCD::setContrast(byte new_val)`. -/
def setContrast (s : QwiicSerLCD) (new_val : Nat) : QwiicSerLCD :=
  let port := s._i2cPort.beginTransmission s._i2cAddr
  let port := port.write SETTING_COMMAND
  let port := port.write CONTRAST_COMMAND
  let port := port.write new_val
  let port := port.endTransmission
  -- delay(10)
  { s with _i2cPort := port }

/-- Method `void QwiicSerLCD::setAddress(byte new_addr)`. -/
def setAddress (s : QwiicSerLCD) (new_addr : Nat) : QwiicSerLCD :=
  let port := s._i2cPort.beginTransmission s._i2cAddr
  let port := port.write SETTING_COMMAND
  let port := port.write ADDRESS_COMMAND
  let port := port.write new_addr
  let port := port.endTransmission
  let s := { s with _i2cPort := port }
  let s := { s with _i2cAddr := new_addr }
  -- delay(50)
  s

end QwiicSerLCD

/-! ## Operations as data -/

/-- The operations of the driver other than `begin`, with their arguments;
one constructor for each method and overload. -/
inductive Op where
  | init
  | command (command : Nat)
  | specialCommand (command : Nat)
  | specialCommand_count (command count : Nat)
  | clear
  | home
  | setCursor (col row : Nat)
  | createChar (location : Nat) (charmap : List Nat)
  | writeChar (location : Nat)
  | write (b : Nat)
  | write_buffer (buffer : List Nat) (size : Nat)
  | write_str (str : Option (List Nat))
  | noDisplay
  | display
  | noCursor
  | cursor
  | noBlink
  | blink
  | scrollDisplayLeft
  | scrollDisplayLeft_count (count : Nat)
  | scrollDisplayRight
  | scrollDisplayRight_count (count : Nat)
  | moveCursorLeft
  | moveCursorLeft_count (count : Nat)
  | moveCursorRight
  | moveCursorRight_count (count : Nat)
  | setBacklight (r g b : Nat)
  | setBacklight_rgb (rgb : Nat)
  | leftToRight
  | rightToLeft
  | autoscroll
  | noAutoscroll
  | setContrast (new_val : Nat)
  | setAddress (new_addr : Nat)
  deriving DecidableEq

/-- The effect of one operation on the driver (a returned count is dropped). -/
def Op.run : Op → QwiicSerLCD → QwiicSerLCD
  | .init, s => s.init
  | .command c, s => s.command c
  | .specialCommand c, s => s.specialCommand c
  | .specialCommand_count c n, s => s.specialCommand_count c n
  | .clear, s => s.clear
  | .home, s => s.home
  | .setCursor col row, s => s.setCursor col row
  | .createChar location charmap, s => s.createChar location charmap
  | .writeChar location, s => s.writeChar location
  | .write b, s => s.write b
  | .write_buffer buffer size, s => (s.write_buffer buffer size).1
  | .write_str str, s => (s.write_str str).1
  | .noDisplay, s => s.noDisplay
  | .display, s => s.display
  | .noCursor, s => s.noCursor
  | .cursor, s => s.cursor
  | .noBlink, s => s.noBlink
  | .blink, s => s.blink
  | .scrollDisplayLeft, s => s.scrollDisplayLeft
  | .scrollDisplayLeft_count n, s => s.scrollDisplayLeft_count n
  | .scrollDisplayRight, s => s.scrollDisplayRight
  | .scrollDisplayRight_count n, s => s.scrollDisplayRight_count n
  | .moveCursorLeft, s => s.moveCursorLeft
  | .moveCursorLeft_count n, s => s.moveCursorLeft_count n
  | .moveCursorRight, s => s.moveCursorRight
  | .moveCursorRight_count n, s => s.moveCursorRight_count n
  | .setBacklight r g b, s => s.setBacklight r g b
  | .setBacklight_rgb rgb, s => s.setBacklight_rgb rgb
  | .leftToRight, s => s.leftToRight
  | .rightToLeft, s => s.rightToLeft
  | .autoscroll, s => s.autoscroll
  | .noAutoscroll, s => s.noAutoscroll
  | .setContrast v, s => s.setContrast v
  | .setAddress a, s => s.setAddress a

/-- A sequence of operations, carried out from left to right. -/
def run (ops : List Op) (s : QwiicSerLCD) : QwiicSerLCD :=
  ops.foldl (fun s op => op.run s) s

/-! ## Transactions -/

/-- The driver `t` comes from the driver `s` by exactly one transaction on
the port: one `beginTransmission` at the address cached in `s`, then byte
writes only, then one `endTransmission`. -/
def OneTransaction (s t : QwiicSerLCD) : Prop :=
  ∃ bytes : List Nat, t._i2cPort = s._i2cPort ++
    ([WireCall.beginTransmission s._i2cAddr] ++ bytes.map WireCall.write ++
      [WireCall.endTransmission])

/-- A port history keeps the transaction discipline: read from the state
`inside` (is a transaction open?), every byte write is inside a transaction,
transactions are not nested, `begin` comes outside of them, and at the end no
transaction is open. -/
def bracketed : Bool → List WireCall → Bool
  | inside, [] => !inside
  | false, WireCall.begin :: rest => bracketed false rest
  | false, WireCall.beginTransmission _ :: rest => bracketed true rest
  | true, WireCall.write _ :: rest => bracketed true rest
  | true, WireCall.endTransmission :: rest => bracketed false rest
  | _, _ :: _ => false

/-! ## The frames on the wire -/

/-- Where the receiver of the byte stream stands within a frame.  The
framing is that of the wire protocol: `0xFE` announces one payload byte of a
special command; `0x7C` announces a setting opcode, of which the contrast and
address opcodes are followed by one value and the opcodes `27..34` of
`createChar` by eight bitmap bytes; any other byte is text. -/
inductive Framing where
  | idle
  | special
  | setting
  | args (more : Nat)
  deriving DecidableEq

/-- What has been decoded from the bytes sent so far: the place in the
current frame, and the payloads of the last display-control special command
(`0000 1DCB`, the values `LCD_DISPLAYCONTROL .. 2 * LCD_DISPLAYCONTROL - 1`)
and of the last entry-mode special command (`0000 01IS`, the values
`LCD_ENTRYMODESET .. 2 * LCD_ENTRYMODESET - 1`), if there were any. -/
structure Decoded where
  framing : Framing
  lastControl : Option Nat
  lastEntry : Option Nat
  deriving DecidableEq

/-- Decoding of one more byte. -/
def Decoded.byte (d : Decoded) (b : Nat) : Decoded :=
  match d.framing with
  | Framing.idle =>
      if b = SPECIAL_COMMAND then { d with framing := Framing.special }
      else if b = SETTING_COMMAND then { d with framing := Framing.setting }
      else d
  | Framing.special =>
      if LCD_DISPLAYCONTROL ≤ b ∧ b < 2 * LCD_DISPLAYCONTROL then
        { d with framing := Framing.idle, lastControl := some b }
      else if LCD_ENTRYMODESET ≤ b ∧ b < 2 * LCD_ENTRYMODESET then
        { d with framing := Framing.idle, lastEntry := some b }
      else { d with framing := Framing.idle }
  | Framing.setting =>
      if b = CONTRAST_COMMAND ∨ b = ADDRESS_COMMAND then { d with framing := Framing.args 0 }
      else if 27 ≤ b ∧ b ≤ 34 then { d with framing := Framing.args 7 }
      else { d with framing := Framing.idle }
  | Framing.args 0 => { d with framing := Framing.idle }
  | Framing.args (more + 1) => { d with framing := Framing.args more }

/-- The driver `t` comes from the driver `s` by setting (`value = true`) or
clearing (`value = false`) the bits of `flag` in `displayControl`, leaving every
other bit of it, `displayMode` and the address alone, and then sending one
special-command frame whose payload is `LCD_DISPLAYCONTROL` or-ed with the
whole new `displayControl`. -/
def ControlToggled (s t : QwiicSerLCD) (flag : Nat) (value : Bool) : Prop :=
  (∀ i, t._displayControl.testBit i =
    if flag.testBit i then value else s._displayControl.testBit i) ∧
  t._displayMode = s._displayMode ∧
  t._i2cAddr = s._i2cAddr ∧
  t._i2cPort = s._i2cPort ++
    [WireCall.beginTransmission s._i2cAddr,
     WireCall.write 0xFE,
     WireCall.write (LCD_DISPLAYCONTROL ||| t._displayControl),
     WireCall.endTransmission]

/-- The driver `t` comes from the driver `s` by setting (`value = true`) or
clearing (`value = false`) the bits of `flag` in `displayMode`, leaving every
other bit of it, `displayControl` and the address alone, and then sending one
special-command frame whose payload is `LCD_ENTRYMODESET` or-ed with the
whole new `displayMode`. -/
def ModeToggled (s t : QwiicSerLCD) (flag : Nat) (value : Bool) : Prop :=
  (∀ i, t._displayMode.testBit i =
    if flag.testBit i then value else s._displayMode.testBit i) ∧
  t._displayControl = s._displayControl ∧
  t._i2cAddr = s._i2cAddr ∧
  t._i2cPort = s._i2cPort ++
    [WireCall.beginTransmission s._i2cAddr,
     WireCall.write 0xFE,
     WireCall.write (LCD_ENTRYMODESET ||| t._displayMode),
     WireCall.endTransmission]

/-! ## Sample data -/

/-- A driver at the default address `0x72` with the display on and the text
running left to right, the port unused so far. -/
def sample : QwiicSerLCD :=
  { _i2cPort := [], _i2cAddr := 0x72, _displayControl := 0x04, _displayMode := 0x02 }

open QwiicSerLCD

/-! ## Arithmetic of bytes -/

theorem toByte_of_lt {n : Nat} (h : n < 256) : toByte n = n :=
  Nat.mod_eq_of_lt h

theorem toByte_lt (n : Nat) : toByte n < 256 :=
  Nat.mod_lt n (by decide)

theorem and_ff_lt (n : Nat) : n &&& 0xFF < 256 :=
  Nat.lt_of_le_of_lt Nat.and_le_right (by decide)

/-- The row index of `setCursor` after both clamps. -/
theorem clamp_row (row : Nat) (h : row < 256) :
    toByte (min (toByte (max 0 row)) (MAX_ROWS - 1)) = min row 3 := by
  have h1 : toByte (max 0 row) = row := by
    rw [Nat.max_eq_right (Nat.zero_le row)]; exact toByte_of_lt h
  rw [h1]
  exact toByte_of_lt (by simp only [MAX_ROWS]; omega)

/-! ## C1 -/

/-- C1: for a column `col` and a row byte `row`, `setCursor col row` with
`row >= MAX_ROWS` leaves the driver and the port exactly as
`setCursor col (MAX_ROWS - 1)` does, and with `row < MAX_ROWS` it sends the
special command built from `row_offsets[row]` for that very `row`. -/
theorem setCursor_row_clamp (s : QwiicSerLCD) (col row : Nat) (hrow : row < 256) :
    (MAX_ROWS ≤ row → s.setCursor col row = s.setCursor col (MAX_ROWS - 1)) ∧
    (row < MAX_ROWS → s.setCursor col row =
      s.specialCommand (toByte (LCD_SETDDRAMADDR ||| (col + row_offsets.getD row 0)))) := by
  constructor
  · intro hge
    have h3 : MAX_ROWS - 1 < 256 := by decide
    simp only [setCursor]
    rw [clamp_row row hrow, clamp_row (MAX_ROWS - 1) h3]
    simp only [MAX_ROWS] at hge
    rw [Nat.min_eq_right (by omega : 3 ≤ row)]
    rfl
  · intro hlt
    simp only [setCursor]
    rw [clamp_row row hrow]
    simp only [MAX_ROWS] at hlt
    rw [Nat.min_eq_left (by omega : row ≤ 3)]

theorem setCursor_row_clamp_witness :
    sample.setCursor 5 200 = sample.setCursor 5 (MAX_ROWS - 1) ∧
    sample.setCursor 5 2 =
      sample.specialCommand (toByte (LCD_SETDDRAMADDR ||| (5 + row_offsets.getD 2 0))) :=
  ⟨(setCursor_row_clamp sample 5 200 (by decide)).1 (by decide),
   (setCursor_row_clamp sample 5 2 (by decide)).2 (by decide)⟩

/-! ## C2 -/

/-- C2: only the low three bits of `location` reach the port: `createChar`
and `writeChar` at `location` leave the driver and the port exactly as at
`location & 7`, for every `location` and every bitmap; in particular location
8 acts as location 0. -/
theorem location_low_three_bits (s : QwiicSerLCD) (location : Nat) (charmap : List Nat) :
    s.createChar location charmap = s.createChar (location &&& 7) charmap ∧
    s.writeChar location = s.writeChar (location &&& 7) ∧
    s.createChar 8 charmap = s.createChar 0 charmap := by
  have h : location &&& 7 &&& 7 = location &&& 7 := by
    rw [Nat.and_assoc, Nat.and_self]
  refine ⟨?_, ?_, rfl⟩
  · simp only [createChar, h]
  · simp only [writeChar, h]

/-! ## C3 -/

/-- C3: `setBacklight 255 255 255` sends, between the two display-control
frames, the frames `0x7C 157`, `0x7C 187`, `0x7C 217` in this order, and
`setBacklight 0 0 0` sends `0x7C 128`, `0x7C 158`, `0x7C 188`. -/
theorem setBacklight_extremes (s : QwiicSerLCD) :
    (s.setBacklight 255 255 255)._i2cPort =
      s._i2cPort ++
        [WireCall.beginTransmission s._i2cAddr,
         WireCall.write 0xFE,
         WireCall.write (toByte (LCD_DISPLAYCONTROL |||
           toByte (s._displayControl &&& bitNot LCD_DISPLAYON))),
         WireCall.write 0x7C, WireCall.write 157,
         WireCall.write 0x7C, WireCall.write 187,
         WireCall.write 0x7C, WireCall.write 217,
         WireCall.write 0xFE,
         WireCall.write (toByte (LCD_DISPLAYCONTROL |||
           toByte (toByte (s._displayControl &&& bitNot LCD_DISPLAYON) ||| LCD_DISPLAYON))),
         WireCall.endTransmission] ∧
    (s.setBacklight 0 0 0)._i2cPort =
      s._i2cPort ++
        [WireCall.beginTransmission s._i2cAddr,
         WireCall.write 0xFE,
         WireCall.write (toByte (LCD_DISPLAYCONTROL |||
           toByte (s._displayControl &&& bitNot LCD_DISPLAYON))),
         WireCall.write 0x7C, WireCall.write 128,
         WireCall.write 0x7C, WireCall.write 158,
         WireCall.write 0x7C, WireCall.write 188,
         WireCall.write 0xFE,
         WireCall.write (toByte (LCD_DISPLAYCONTROL |||
           toByte (toByte (s._displayControl &&& bitNot LCD_DISPLAYON) ||| LCD_DISPLAYON))),
         WireCall.endTransmission] := by
  constructor
  · simp [setBacklight, TwoWire.beginTransmission, TwoWire.write, TwoWire.endTransmission,
      SPECIAL_COMMAND, SETTING_COMMAND, map, toByte]
    decide
  · simp [setBacklight, TwoWire.beginTransmission, TwoWire.write, TwoWire.endTransmission,
      SPECIAL_COMMAND, SETTING_COMMAND, map, toByte]

/-! ## C4 -/

/-- The three channel bytes of a packed value ignore everything above bit 23. -/
theorem unpack_mod (rgb : Nat) :
    (rgb % 2 ^ 24) >>> 16 &&& 0xFF = rgb >>> 16 &&& 0xFF ∧
    (rgb % 2 ^ 24) >>> 8 &&& 0xFF = rgb >>> 8 &&& 0xFF ∧
    (rgb % 2 ^ 24) &&& 0xFF = rgb &&& 0xFF := by
  have e : ∀ n : Nat, n &&& 0xFF = n % 256 := fun n =>
    Nat.and_pow_two_sub_one_eq_mod n 8
  simp only [e, Nat.shiftRight_eq_div_pow]
  omega

/-- C4: for every packed value `rgb` and every state, `setBacklight_rgb rgb`
gives the same final state, port history included, as `setBacklight` on the three
bytes `(rgb >> 16) & 0xFF`, `(rgb >> 8) & 0xFF`, `rgb & 0xFF`; the bits of
`rgb` above bit 23 have no effect; and `setBacklight_rgb 0x00FF0000` is
`setBacklight 255 0 0`. -/
theorem setBacklight_rgb_eq_triplet (s : QwiicSerLCD) (rgb : Nat) :
    s.setBacklight_rgb rgb =
      s.setBacklight (rgb >>> 16 &&& 0xFF) (rgb >>> 8 &&& 0xFF) (rgb &&& 0xFF) ∧
    s.setBacklight_rgb rgb = s.setBacklight_rgb (rgb % 2 ^ 24) ∧
    s.setBacklight_rgb 0x00FF0000 = s.setBacklight 255 0 0 := by
  refine ⟨?_, ?_, rfl⟩
  · simp only [setBacklight_rgb, toByte_of_lt (and_ff_lt _)]
  · obtain ⟨h1, h2, h3⟩ := unpack_mod rgb
    simp only [setBacklight_rgb, h1, h2, h3]

/-! ## Setting and clearing flag bits -/

/-- Bits of `d | f` for bytes: the conversion to `byte` changes nothing. -/
theorem testBit_set (d f : Nat) (hd : d < 256) (hf : f < 256) (i : Nat) :
    (toByte (d ||| f)).testBit i = (d.testBit i || f.testBit i) := by
  have h : d ||| f < 2 ^ 8 := Nat.or_lt_two_pow hd hf
  rw [toByte_of_lt h, Nat.testBit_or]

/-- Bits of `d & ~f` for bytes. -/
theorem testBit_clear (d f : Nat) (hd : d < 256) (i : Nat) :
    (toByte (d &&& bitNot f)).testBit i = (d.testBit i && !f.testBit i) := by
  have h : d &&& bitNot f < 256 := Nat.lt_of_le_of_lt Nat.and_le_left hd
  rw [toByte_of_lt h, Nat.testBit_and, bitNot, Nat.testBit_xor]
  by_cases hi : i < 16
  · have : Nat.testBit 0xFFFF i = true := by
      have := Nat.testBit_two_pow_sub_one 16 i
      simpa [hi] using this
    rw [this]; simp
  · have hd' : d.testBit i = false :=
      Nat.testBit_lt_two_pow (Nat.lt_of_lt_of_le hd
        (by
          have : 2 ^ 8 ≤ 2 ^ i := Nat.pow_le_pow_right (by decide) (by omega)
          simpa using this))
    rw [hd']; simp

set_option maxRecDepth 8192 in
/-- The flag byte after `cursor` then `noCursor`, as a number. -/
theorem set_clear_cursor : ∀ d, d < 256 →
    toByte (toByte (d ||| LCD_CURSORON) &&& bitNot LCD_CURSORON) = d &&& 0xFD := by
  decide

/-! ## C5 -/

/-- C5: from a cached `displayControl` byte `d`, `cursor` followed by
`noCursor` leaves `displayControl` equal to `d` with bit 1, the cursor bit,
cleared and every other bit (display-on and blink-on among them) as in `d`;
the port receives the frame of `cursor` and then, last, the frame `0xFE`,
`LCD_DISPLAYCONTROL | (d with the cursor bit cleared)`; the address and
`displayMode` are untouched. -/
theorem cursor_then_noCursor (s : QwiicSerLCD) (hd : s._displayControl < 256) :
    LCD_CURSORON = 2 ^ 1 ∧
    (s.cursor.noCursor)._displayControl = s._displayControl &&& 0xFD ∧
    (∀ i, (s.cursor.noCursor)._displayControl.testBit i =
      (decide (i ≠ 1) && s._displayControl.testBit i)) ∧
    (s.cursor.noCursor)._i2cPort = s._i2cPort ++
      [WireCall.beginTransmission s._i2cAddr,
       WireCall.write 0xFE,
       WireCall.write (LCD_DISPLAYCONTROL ||| (s._displayControl ||| LCD_CURSORON)),
       WireCall.endTransmission,
       WireCall.beginTransmission s._i2cAddr,
       WireCall.write 0xFE,
       WireCall.write (LCD_DISPLAYCONTROL ||| (s._displayControl &&& 0xFD)),
       WireCall.endTransmission] ∧
    (s.cursor.noCursor)._i2cAddr = s._i2cAddr ∧
    (s.cursor.noCursor)._displayMode = s._displayMode := by
  have hdc : (s.cursor.noCursor)._displayControl =
      toByte (toByte (s._displayControl ||| LCD_CURSORON) &&& bitNot LCD_CURSORON) := rfl
  have hor : s._displayControl ||| LCD_CURSORON < 2 ^ 8 :=
    Nat.or_lt_two_pow hd (show LCD_CURSORON < 2 ^ 8 by decide)
  have hand : s._displayControl &&& 0xFD < 256 := Nat.lt_of_le_of_lt Nat.and_le_left hd
  refine ⟨rfl, ?_, ?_, ?_, rfl, rfl⟩
  · rw [hdc, set_clear_cursor _ hd]
  · intro i
    rw [hdc, testBit_clear _ _ (toByte_lt _), testBit_set _ _ hd (by decide)]
    have h2 : LCD_CURSORON.testBit i = decide (1 = i) := @Nat.testBit_two_pow 1 i
    rw [h2]
    by_cases h : i = 1 <;> simp [h, eq_comm]
  · have h1 : toByte (LCD_DISPLAYCONTROL ||| (s._displayControl ||| LCD_CURSORON)) =
        LCD_DISPLAYCONTROL ||| (s._displayControl ||| LCD_CURSORON) :=
      toByte_of_lt (Nat.or_lt_two_pow (show LCD_DISPLAYCONTROL < 2 ^ 8 by decide) hor)
    have h2 : toByte (LCD_DISPLAYCONTROL ||| (s._displayControl &&& 0xFD)) =
        LCD_DISPLAYCONTROL ||| (s._displayControl &&& 0xFD) :=
      toByte_of_lt (Nat.or_lt_two_pow (show LCD_DISPLAYCONTROL < 2 ^ 8 by decide) hand)
    simp only [noCursor, cursor, specialCommand, TwoWire.beginTransmission, TwoWire.write,
      TwoWire.endTransmission, List.append_assoc, List.singleton_append, List.cons_append,
      List.nil_append]
    rw [set_clear_cursor _ hd, toByte_of_lt hor, h1, h2, h1, h2]
    rfl

theorem cursor_then_noCursor_witness :
    (sample.cursor.noCursor)._displayControl = 0x04 ∧
    (sample.cursor.noCursor)._i2cPort =
      [WireCall.beginTransmission 0x72, WireCall.write 0xFE, WireCall.write 0x0E,
       WireCall.endTransmission,
       WireCall.beginTransmission 0x72, WireCall.write 0xFE, WireCall.write 0x0C,
       WireCall.endTransmission] :=
  have h := cursor_then_noCursor sample (by decide)
  ⟨h.2.1, h.2.2.2.1⟩

/-! ## C6 -/

/-- C6: `write_str` on the null pointer returns 0 and returns the driver as it
was: the port history is the same, so no transaction was opened and no byte
was sent, and the address and both flag bytes are the same. -/
theorem write_str_null (s : QwiicSerLCD) :
    (s.write_str none).2 = 0 ∧
    (s.write_str none).1._i2cPort = s._i2cPort ∧
    (s.write_str none).1 = s :=
  ⟨rfl, rfl, rfl⟩

/-! ## C7 -/

/-- C7: for every cached address `a` and every byte `new_addr`,
`setAddress new_addr` appends one transaction to the port, opened at the old
address `a` and carrying `0x7C`, `0x19`, `new_addr`; afterwards the cached
address is `new_addr` whatever the port did, and both flag bytes are as
before. -/
theorem setAddress_spec (s : QwiicSerLCD) (new_addr : Nat) (h : new_addr < 256) :
    (s.setAddress new_addr)._i2cPort = s._i2cPort ++
      [WireCall.beginTransmission s._i2cAddr,
       WireCall.write 0x7C, WireCall.write 0x19, WireCall.write new_addr,
       WireCall.endTransmission] ∧
    (s.setAddress new_addr)._i2cAddr = new_addr ∧
    (s.setAddress new_addr)._displayControl = s._displayControl ∧
    (s.setAddress new_addr)._displayMode = s._displayMode := by
  refine ⟨?_, rfl, rfl, rfl⟩
  simp only [setAddress, TwoWire.beginTransmission, TwoWire.write, TwoWire.endTransmission,
    List.append_assoc, List.singleton_append, List.cons_append, List.nil_append,
    toByte_of_lt h]
  rfl

theorem setAddress_spec_witness :
    (sample.setAddress 0x73)._i2cPort =
      [WireCall.beginTransmission 0x72,
       WireCall.write 0x7C, WireCall.write 0x19, WireCall.write 0x73,
       WireCall.endTransmission] ∧
    (sample.setAddress 0x73)._i2cAddr = 0x73 ∧
    (sample.setAddress 0x73)._displayControl = 0x04 ∧
    (sample.setAddress 0x73)._displayMode = 0x02 :=
  setAddress_spec sample 0x73 (by decide)

/-! ## C8 -/

/-- The loop of `write_buffer` sends the first `size` bytes in order and
counts them. -/
theorem write_loop_spec : ∀ (size : Nat) (buffer : List Nat) (port : TwoWire) (n : Nat),
    size ≤ buffer.length → (∀ x ∈ buffer, x < 256) →
    write_loop size buffer port n =
      (port ++ (buffer.take size).map WireCall.write, n + size)
  | 0, buffer, port, n, _, _ => by simp [write_loop]
  | size + 1, [], port, n, hlen, _ => by simp at hlen
  | size + 1, x :: rest, port, n, hlen, hb => by
      have hx : x < 256 := hb x (List.mem_cons_self x rest)
      have hrest : ∀ y ∈ rest, y < 256 := fun y hy => hb y (List.mem_cons_of_mem x hy)
      have hlen' : size ≤ rest.length := by simpa using hlen
      simp only [write_loop, List.tail_cons, List.headD_cons, TwoWire.write, toByte_of_lt hx]
      rw [write_loop_spec size rest _ (n + 1) hlen' hrest]
      simp [Nat.add_assoc, Nat.add_comm 1 size]

/-- The length found by `strlen` lies within the bytes given. -/
theorem strlen_le : ∀ str : List Nat, strlen str ≤ str.length
  | [] => Nat.le_refl 0
  | c :: rest => by
      by_cases hc : (c != 0) = true
      · have ih := strlen_le rest
        simp only [strlen] at ih ⊢
        simp only [List.takeWhile_cons, hc, if_true, List.length_cons]
        omega
      · simp [strlen, List.takeWhile_cons, hc]

/-- The first `strlen str` bytes are the bytes before the first NUL. -/
theorem take_strlen : ∀ str : List Nat,
    str.take (strlen str) = str.takeWhile (fun c => c != 0)
  | [] => rfl
  | c :: rest => by
      by_cases hc : (c != 0) = true
      · have ih := take_strlen rest
        simp only [strlen] at ih ⊢
        simp only [List.takeWhile_cons, hc, if_true, List.length_cons, List.take_succ_cons, ih]
      · simp [strlen, List.takeWhile_cons, hc]

/-- The transaction of `write_buffer` for a length within a buffer of bytes. -/
theorem write_buffer_eq (s : QwiicSerLCD) (buffer : List Nat) (n : Nat)
    (hn : n ≤ buffer.length) (hb : ∀ x ∈ buffer, x < 256) :
    s.write_buffer buffer n =
      ({ s with _i2cPort := s._i2cPort ++
          ([WireCall.beginTransmission s._i2cAddr] ++
            (buffer.take n).map WireCall.write ++ [WireCall.endTransmission]) }, n) := by
  simp only [write_buffer, TwoWire.beginTransmission, TwoWire.endTransmission,
    write_loop_spec n buffer _ 0 hn hb, Nat.zero_add, List.append_assoc]

/-- C8: for a buffer of bytes and a length `n` within it, `write_buffer`
(a total function, so the call returns) appends to the port one transaction
at the cached address holding exactly the first `n` bytes of the buffer, in
order and with nothing before or between them, changes nothing else and
returns `n`; and `write_str` on a non-null pointer is `write_buffer` on the
same bytes with the length `strlen` finds, so it sends the bytes before the
first NUL and returns their number. -/
theorem write_buffer_spec (s : QwiicSerLCD) (buffer : List Nat) (n : Nat)
    (hn : n ≤ buffer.length) (hb : ∀ x ∈ buffer, x < 256) :
    s.write_buffer buffer n =
      ({ s with _i2cPort := s._i2cPort ++
          ([WireCall.beginTransmission s._i2cAddr] ++
            (buffer.take n).map WireCall.write ++ [WireCall.endTransmission]) }, n) ∧
    s.write_str (some buffer) = s.write_buffer buffer (strlen buffer) ∧
    s.write_str (some buffer) =
      ({ s with _i2cPort := s._i2cPort ++
          ([WireCall.beginTransmission s._i2cAddr] ++
            (buffer.takeWhile (fun c => c != 0)).map WireCall.write ++
              [WireCall.endTransmission]) }, strlen buffer) := by
  have key := fun m hm => write_buffer_eq s buffer m hm hb
  refine ⟨key n hn, rfl, ?_⟩
  have hlen : strlen buffer ≤ buffer.length := strlen_le buffer
  have htake : buffer.take (strlen buffer) = buffer.takeWhile (fun c => c != 0) :=
    take_strlen buffer
  show s.write_buffer buffer (strlen buffer) = _
  rw [key _ hlen, htake]

theorem write_buffer_spec_witness :
    sample.write_buffer [72, 105, 0, 33] 2 =
      ({ sample with _i2cPort := sample._i2cPort ++
          ([WireCall.beginTransmission sample._i2cAddr] ++
            ([72, 105, 0, 33].take 2).map WireCall.write ++ [WireCall.endTransmission]) }, 2) ∧
    sample.write_str (some [72, 105, 0, 33]) =
      sample.write_buffer [72, 105, 0, 33] (strlen [72, 105, 0, 33]) ∧
    sample.write_str (some [72, 105, 0, 33]) =
      ({ sample with _i2cPort := sample._i2cPort ++
          ([WireCall.beginTransmission sample._i2cAddr] ++
            ([72, 105, 0, 33].takeWhile (fun c => c != 0)).map WireCall.write ++
              [WireCall.endTransmission]) }, strlen [72, 105, 0, 33]) :=
  write_buffer_spec sample [72, 105, 0, 33] 2 (by decide) (by decide)

/-! ## C9 -/

/-- C9: evaluation of `setBacklight` on a driver whose display was switched
off by `noDisplay`.  Before the call the cached `displayControl` is `0x00`;
after `setBacklight 0 0 0` it is `0x04`, and the last display-control frame of
the call carries `0x0C`, display on: the flag is not put back to what it
was. -/
theorem setBacklight_after_noDisplay :
    (sample.noDisplay)._displayControl = 0x00 ∧
    (sample.noDisplay.setBacklight 0 0 0)._displayControl = 0x04 ∧
    (sample.noDisplay.setBacklight 0 0 0)._i2cPort =
      (sample.noDisplay)._i2cPort ++
        [WireCall.beginTransmission 0x72,
         WireCall.write 0xFE, WireCall.write 0x08,
         WireCall.write 0x7C, WireCall.write 128,
         WireCall.write 0x7C, WireCall.write 158,
         WireCall.write 0x7C, WireCall.write 188,
         WireCall.write 0xFE, WireCall.write 0x0C,
         WireCall.endTransmission] := by
  decide

/-! ## C10 -/

theorem toByte_or (a b : Nat) (ha : a < 256) (hb : b < 256) : toByte (a ||| b) = a ||| b :=
  toByte_of_lt (Nat.or_lt_two_pow (show a < 2 ^ 8 from ha) (show b < 2 ^ 8 from hb))

theorem toByte_toByte (n : Nat) : toByte (toByte n) = toByte n :=
  toByte_of_lt (toByte_lt n)

/-- What `specialCommand` does to the driver. -/
theorem specialCommand_eq (s : QwiicSerLCD) (command : Nat) :
    s.specialCommand command =
      { s with _i2cPort := s._i2cPort ++
          [WireCall.beginTransmission s._i2cAddr, WireCall.write 0xFE,
           WireCall.write (toByte command), WireCall.endTransmission] } := by
  simp only [specialCommand, TwoWire.beginTransmission, TwoWire.write, TwoWire.endTransmission,
    List.append_assoc, List.singleton_append, List.cons_append, List.nil_append]
  rfl

theorem controlToggled_set (s : QwiicSerLCD) (flag : Nat)
    (hd : s._displayControl < 256) (hf : flag < 256) :
    ControlToggled s
      (({ s with _displayControl := toByte (s._displayControl ||| flag) } : QwiicSerLCD).specialCommand
        (toByte (LCD_DISPLAYCONTROL ||| toByte (s._displayControl ||| flag))))
      flag true := by
  rw [specialCommand_eq]
  refine ⟨fun i => ?_, rfl, rfl, ?_⟩
  · show (toByte (s._displayControl ||| flag)).testBit i = _
    rw [testBit_set _ _ hd hf]
    cases flag.testBit i <;> simp
  · show _ ++ _ = _ ++ _
    rw [toByte_toByte, toByte_or _ _ (show LCD_DISPLAYCONTROL < 256 by decide) (toByte_lt _)]

theorem controlToggled_clear (s : QwiicSerLCD) (flag : Nat) (hd : s._displayControl < 256) :
    ControlToggled s
      (({ s with _displayControl := toByte (s._displayControl &&& bitNot flag) } :
          QwiicSerLCD).specialCommand
        (toByte (LCD_DISPLAYCONTROL ||| toByte (s._displayControl &&& bitNot flag))))
      flag false := by
  rw [specialCommand_eq]
  refine ⟨fun i => ?_, rfl, rfl, ?_⟩
  · show (toByte (s._displayControl &&& bitNot flag)).testBit i = _
    rw [testBit_clear _ _ hd]
    cases flag.testBit i <;> simp
  · show _ ++ _ = _ ++ _
    rw [toByte_toByte, toByte_or _ _ (show LCD_DISPLAYCONTROL < 256 by decide) (toByte_lt _)]

theorem modeToggled_set (s : QwiicSerLCD) (flag : Nat)
    (hd : s._displayMode < 256) (hf : flag < 256) :
    ModeToggled s
      (({ s with _displayMode := toByte (s._displayMode ||| flag) } : QwiicSerLCD).specialCommand
        (toByte (LCD_ENTRYMODESET ||| toByte (s._displayMode ||| flag))))
      flag true := by
  rw [specialCommand_eq]
  refine ⟨fun i => ?_, rfl, rfl, ?_⟩
  · show (toByte (s._displayMode ||| flag)).testBit i = _
    rw [testBit_set _ _ hd hf]
    cases flag.testBit i <;> simp
  · show _ ++ _ = _ ++ _
    rw [toByte_toByte, toByte_or _ _ (show LCD_ENTRYMODESET < 256 by decide) (toByte_lt _)]

theorem modeToggled_clear (s : QwiicSerLCD) (flag : Nat) (hd : s._displayMode < 256) :
    ModeToggled s
      (({ s with _displayMode := toByte (s._displayMode &&& bitNot flag) } :
          QwiicSerLCD).specialCommand
        (toByte (LCD_ENTRYMODESET ||| toByte (s._displayMode &&& bitNot flag))))
      flag false := by
  rw [specialCommand_eq]
  refine ⟨fun i => ?_, rfl, rfl, ?_⟩
  · show (toByte (s._displayMode &&& bitNot flag)).testBit i = _
    rw [testBit_clear _ _ hd]
    cases flag.testBit i <;> simp
  · show _ ++ _ = _ ++ _
    rw [toByte_toByte, toByte_or _ _ (show LCD_ENTRYMODESET < 256 by decide) (toByte_lt _)]

/-- C10: each of the ten flag toggles, started with byte-sized flag bytes,
sets (`display`, `cursor`, `blink`, `leftToRight`, `autoscroll`) or clears
(`noDisplay`, `noCursor`, `noBlink`, `rightToLeft`, `noAutoscroll`) its flag
in its own flag byte and changes no other bit of that byte, nor the other
flag byte, nor the address; then it sends exactly one frame: `0xFE` followed
by `LCD_DISPLAYCONTROL` (respectively `LCD_ENTRYMODESET`) or-ed with the whole
updated flag byte.  Each flag is a single bit, and the flags of one byte are
distinct bits. -/
theorem flag_toggles (s : QwiicSerLCD)
    (hc : s._displayControl < 256) (hm : s._displayMode < 256) :
    (ControlToggled s s.display LCD_DISPLAYON true ∧
     ControlToggled s s.noDisplay LCD_DISPLAYON false ∧
     ControlToggled s s.cursor LCD_CURSORON true ∧
     ControlToggled s s.noCursor LCD_CURSORON false ∧
     ControlToggled s s.blink LCD_BLINKON true ∧
     ControlToggled s s.noBlink LCD_BLINKON false) ∧
    (ModeToggled s s.leftToRight LCD_ENTRYLEFT true ∧
     ModeToggled s s.rightToLeft LCD_ENTRYLEFT false ∧
     ModeToggled s s.autoscroll LCD_ENTRYSHIFTINCREMENT true ∧
     ModeToggled s s.noAutoscroll LCD_ENTRYSHIFTINCREMENT false) ∧
    (LCD_DISPLAYON = 2 ^ 2 ∧ LCD_CURSORON = 2 ^ 1 ∧ LCD_BLINKON = 2 ^ 0 ∧
     LCD_ENTRYLEFT = 2 ^ 1 ∧ LCD_ENTRYSHIFTINCREMENT = 2 ^ 0) :=
  ⟨⟨controlToggled_set s LCD_DISPLAYON hc (by decide),
    controlToggled_clear s LCD_DISPLAYON hc,
    controlToggled_set s LCD_CURSORON hc (by decide),
    controlToggled_clear s LCD_CURSORON hc,
    controlToggled_set s LCD_BLINKON hc (by decide),
    controlToggled_clear s LCD_BLINKON hc⟩,
   ⟨modeToggled_set s LCD_ENTRYLEFT hm (by decide),
    modeToggled_clear s LCD_ENTRYLEFT hm,
    modeToggled_set s LCD_ENTRYSHIFTINCREMENT hm (by decide),
    modeToggled_clear s LCD_ENTRYSHIFTINCREMENT hm⟩,
   ⟨rfl, rfl, rfl, rfl, rfl⟩⟩

theorem flag_toggles_witness :
    sample._displayControl < 256 ∧ sample._displayMode < 256 ∧
    ControlToggled sample sample.noDisplay LCD_DISPLAYON false ∧
    ModeToggled sample sample.autoscroll LCD_ENTRYSHIFTINCREMENT true :=
  have h := flag_toggles sample (by decide) (by decide)
  ⟨by decide, by decide, h.1.2.1, h.2.1.2.2.1⟩

/-! ## C11 -/

/-- The scaled channel byte: for a byte `x` and a base of at most 226 the sum
`base + map(x, 0, 255, 0, 29)` is `base + 29 * x / 255` and fits a byte. -/
theorem channel_byte (base : Nat) (hbase : base ≤ 226) (x : Nat) (hx : x < 256) :
    toByte (base + map x 0 255 0 29).toNat = base + 29 * x / 255 := by
  have hm : map x 0 255 0 29 = ((29 * x / 255 : Nat) : Int) := by
    simp only [map, sub_zero, add_zero]
    rw [Int.tdiv_eq_ediv (by positivity) (by decide)]
    push_cast
    rw [mul_comm]
  rw [hm]
  have : ((base : Int) + ((29 * x / 255 : Nat) : Int)).toNat = base + 29 * x / 255 := by
    rw [← Nat.cast_add, Int.toNat_natCast]
  rw [this]
  apply toByte_of_lt
  omega

/-- The port history of `setBacklight`, byte by byte as the source computes it. -/
theorem setBacklight_port (s : QwiicSerLCD) (r g b : Nat) :
    (s.setBacklight r g b)._i2cPort = s._i2cPort ++
      [WireCall.beginTransmission s._i2cAddr,
       WireCall.write 0xFE,
       WireCall.write (toByte (LCD_DISPLAYCONTROL |||
         toByte (s._displayControl &&& bitNot LCD_DISPLAYON))),
       WireCall.write 0x7C, WireCall.write (toByte (toByte (128 + map r 0 255 0 29).toNat)),
       WireCall.write 0x7C, WireCall.write (toByte (toByte (158 + map g 0 255 0 29).toNat)),
       WireCall.write 0x7C, WireCall.write (toByte (toByte (188 + map b 0 255 0 29).toNat)),
       WireCall.write 0xFE,
       WireCall.write (toByte (LCD_DISPLAYCONTROL |||
         toByte (toByte (s._displayControl &&& bitNot LCD_DISPLAYON) ||| LCD_DISPLAYON))),
       WireCall.endTransmission] := by
  simp only [setBacklight, TwoWire.beginTransmission, TwoWire.write, TwoWire.endTransmission,
    List.append_assoc, List.singleton_append, List.cons_append, List.nil_append]
  rfl

/-- C11: for bytes `r`, `g`, `b`, `setBacklight r g b` sends after the three
`0x7C` prefixes the channel bytes `128 + 29 * r / 255`, `158 + 29 * g / 255`
and `188 + 29 * b / 255` (natural-number division, the value of Arduino
`map(x, 0, 255, 0, 29)`; nothing wraps around at 8 bits), which lie in
`128..157`, `158..187` and `188..217`. -/
theorem setBacklight_channels (s : QwiicSerLCD) (r g b : Nat)
    (hr : r < 256) (hg : g < 256) (hb : b < 256) :
    (s.setBacklight r g b)._i2cPort = s._i2cPort ++
      [WireCall.beginTransmission s._i2cAddr,
       WireCall.write 0xFE,
       WireCall.write (toByte (LCD_DISPLAYCONTROL |||
         toByte (s._displayControl &&& bitNot LCD_DISPLAYON))),
       WireCall.write 0x7C, WireCall.write (128 + 29 * r / 255),
       WireCall.write 0x7C, WireCall.write (158 + 29 * g / 255),
       WireCall.write 0x7C, WireCall.write (188 + 29 * b / 255),
       WireCall.write 0xFE,
       WireCall.write (toByte (LCD_DISPLAYCONTROL |||
         toByte (toByte (s._displayControl &&& bitNot LCD_DISPLAYON) ||| LCD_DISPLAYON))),
       WireCall.endTransmission] ∧
    (128 ≤ 128 + 29 * r / 255 ∧ 128 + 29 * r / 255 ≤ 157) ∧
    (158 ≤ 158 + 29 * g / 255 ∧ 158 + 29 * g / 255 ≤ 187) ∧
    (188 ≤ 188 + 29 * b / 255 ∧ 188 + 29 * b / 255 ≤ 217) := by
  refine ⟨?_, ⟨by omega, by omega⟩, ⟨by omega, by omega⟩, ⟨by omega, by omega⟩⟩
  have h1 := channel_byte 128 (by decide) r hr
  have h2 := channel_byte 158 (by decide) g hg
  have h3 := channel_byte 188 (by decide) b hb
  simp only [Nat.cast_ofNat] at h1 h2 h3
  rw [setBacklight_port, h1, h2, h3,
    toByte_of_lt (by omega : 128 + 29 * r / 255 < 256),
    toByte_of_lt (by omega : 158 + 29 * g / 255 < 256),
    toByte_of_lt (by omega : 188 + 29 * b / 255 < 256)]

theorem setBacklight_channels_witness :
    (sample.setBacklight 100 200 9)._i2cPort =
      [WireCall.beginTransmission 0x72,
       WireCall.write 0xFE, WireCall.write 0x08,
       WireCall.write 0x7C, WireCall.write 139,
       WireCall.write 0x7C, WireCall.write 180,
       WireCall.write 0x7C, WireCall.write 189,
       WireCall.write 0xFE, WireCall.write 0x0C,
       WireCall.endTransmission] :=
  (setBacklight_channels sample 100 200 9 (by decide) (by decide) (by decide)).1

/-! ## C13 -/

/-- The loop of `specialCommand_count`: `count` rounds append `count` pairs. -/
theorem special_loop (command : Nat) (port : TwoWire) : ∀ count : Nat,
    (List.range count).foldl
        (fun port _ => (port.write SPECIAL_COMMAND).write command) port =
      port ++ (List.replicate count
        [WireCall.write 0xFE, WireCall.write (toByte command)]).flatten
  | 0 => by simp
  | count + 1 => by
      rw [List.range_succ, List.foldl_append, special_loop command port count]
      simp only [List.foldl_cons, List.foldl_nil, TwoWire.write, List.append_assoc,
        List.singleton_append]
      congr 1
      have hrep : List.replicate (count + 1) [WireCall.write 0xFE, WireCall.write (toByte command)]
          = List.replicate count [WireCall.write 0xFE, WireCall.write (toByte command)] ++
            [[WireCall.write 0xFE, WireCall.write (toByte command)]] := by
        rw [← List.replicate_succ']
      rw [hrep, List.flatten_append]
      simp [SPECIAL_COMMAND]
      rfl

/-- C13: for a command byte `c` and any count `n` (so for the counts 0..255
of a `byte`), `specialCommand_count c n`, a total function, appends to the
port one transaction at the cached address holding `n` copies of the pair
`0xFE`, `c`, that is `2 * n` bytes, and changes nothing else.  With count 1
the four scroll and move forms end in the same state as their forms without a
count; with count 0 they open and close a transaction without a byte in it. -/
theorem specialCommand_count_spec (s : QwiicSerLCD) (c n : Nat) (hc : c < 256) :
    s.specialCommand_count c n =
      { s with _i2cPort := s._i2cPort ++
          ([WireCall.beginTransmission s._i2cAddr] ++
            (List.replicate n [WireCall.write 0xFE, WireCall.write c]).flatten ++
              [WireCall.endTransmission]) } ∧
    ((List.replicate n [WireCall.write 0xFE, WireCall.write c]).flatten).length = 2 * n ∧
    (s.scrollDisplayLeft_count 1 = s.scrollDisplayLeft ∧
     s.scrollDisplayRight_count 1 = s.scrollDisplayRight ∧
     s.moveCursorLeft_count 1 = s.moveCursorLeft ∧
     s.moveCursorRight_count 1 = s.moveCursorRight) ∧
    ((s.scrollDisplayLeft_count 0)._i2cPort =
        s._i2cPort ++ [WireCall.beginTransmission s._i2cAddr, WireCall.endTransmission] ∧
     (s.scrollDisplayRight_count 0)._i2cPort =
        s._i2cPort ++ [WireCall.beginTransmission s._i2cAddr, WireCall.endTransmission] ∧
     (s.moveCursorLeft_count 0)._i2cPort =
        s._i2cPort ++ [WireCall.beginTransmission s._i2cAddr, WireCall.endTransmission] ∧
     (s.moveCursorRight_count 0)._i2cPort =
        s._i2cPort ++ [WireCall.beginTransmission s._i2cAddr, WireCall.endTransmission]) := by
  have zero : ∀ c : Nat, (s.specialCommand_count c 0)._i2cPort =
      s._i2cPort ++ [WireCall.beginTransmission s._i2cAddr, WireCall.endTransmission] := by
    intro c
    simp [specialCommand_count, TwoWire.beginTransmission, TwoWire.endTransmission]
  refine ⟨?_, ?_, ⟨rfl, rfl, rfl, rfl⟩, ⟨zero _, zero _, zero _, zero _⟩⟩
  · simp only [specialCommand_count, TwoWire.beginTransmission, TwoWire.endTransmission,
      special_loop, toByte_of_lt hc, List.append_assoc]
  · simp [List.length_flatten, Nat.mul_comm]

theorem specialCommand_count_spec_witness :
    sample.specialCommand_count 0x18 3 =
      { sample with _i2cPort :=
          [WireCall.beginTransmission 0x72,
           WireCall.write 0xFE, WireCall.write 0x18,
           WireCall.write 0xFE, WireCall.write 0x18,
           WireCall.write 0xFE, WireCall.write 0x18,
           WireCall.endTransmission] } :=
  (specialCommand_count_spec sample 0x18 3 (by decide)).1

/-! ## C14 -/

/-- The transaction of `init` for byte-sized flag bytes. -/
theorem init_eq (s : QwiicSerLCD)
    (hc : s._displayControl < 256) (hm : s._displayMode < 256) :
    s.init = { s with _i2cPort := s._i2cPort ++
      [WireCall.beginTransmission s._i2cAddr,
       WireCall.write 0xFE, WireCall.write (LCD_DISPLAYCONTROL ||| s._displayControl),
       WireCall.write 0xFE, WireCall.write (LCD_ENTRYMODESET ||| s._displayMode),
       WireCall.write 0x7C, WireCall.write 0x2D,
       WireCall.endTransmission] } := by
  simp only [init, TwoWire.beginTransmission, TwoWire.write, TwoWire.endTransmission,
    List.append_assoc, List.singleton_append, List.cons_append, List.nil_append,
    toByte_or _ _ (show LCD_DISPLAYCONTROL < 256 by decide) hc,
    toByte_or _ _ (show LCD_ENTRYMODESET < 256 by decide) hm]
  rfl

/-- C14: for every state with byte-sized flag bytes, `init` appends to the
port one transaction at the cached address with exactly the six bytes `0xFE`,
`LCD_DISPLAYCONTROL | displayControl`, `0xFE`, `LCD_ENTRYMODESET |
displayMode`, `0x7C`, `0x2D` in this order, and leaves the address and both
flag bytes as they were. -/
theorem init_spec (s : QwiicSerLCD)
    (hc : s._displayControl < 256) (hm : s._displayMode < 256) :
    s.init = { s with _i2cPort := s._i2cPort ++
      [WireCall.beginTransmission s._i2cAddr,
       WireCall.write 0xFE, WireCall.write (LCD_DISPLAYCONTROL ||| s._displayControl),
       WireCall.write 0xFE, WireCall.write (LCD_ENTRYMODESET ||| s._displayMode),
       WireCall.write 0x7C, WireCall.write 0x2D,
       WireCall.endTransmission] } ∧
    s.init._i2cAddr = s._i2cAddr ∧
    s.init._displayControl = s._displayControl ∧
    s.init._displayMode = s._displayMode :=
  ⟨init_eq s hc hm, rfl, rfl, rfl⟩

theorem init_spec_witness :
    sample.init = { sample with _i2cPort :=
      [WireCall.beginTransmission 0x72,
       WireCall.write 0xFE, WireCall.write 0x0C,
       WireCall.write 0xFE, WireCall.write 0x06,
       WireCall.write 0x7C, WireCall.write 0x2D,
       WireCall.endTransmission] } :=
  (init_spec sample (by decide) (by decide)).1

/-! ## C15 -/

/-- The frame of `setCursor` for a row byte. -/
theorem setCursor_eq (s : QwiicSerLCD) (col row : Nat) (hrow : row < 256) :
    s.setCursor col row = { s with _i2cPort := s._i2cPort ++
      [WireCall.beginTransmission s._i2cAddr,
       WireCall.write 0xFE,
       WireCall.write ((0x80 ||| (col + [0x00, 0x40, 0x14, 0x54].getD (min row 3) 0)) % 256),
       WireCall.endTransmission] } := by
  simp only [setCursor]
  rw [clamp_row row hrow, specialCommand_eq, toByte_toByte]
  rfl

/-- C15: for bytes `col` and `row`, `setCursor col row` appends exactly one
frame: a transaction at the cached address with `0xFE` and the payload
`(0x80 | (col + offset[min(row, 3)])) mod 256`, the offsets being `0x00`,
`0x40`, `0x14`, `0x54`.  The column is not clamped, the sum is a sum of
natural numbers (no wrap-around at 8 bits) and only the payload is reduced
modulo 256. -/
theorem setCursor_frame (s : QwiicSerLCD) (col row : Nat) (hrow : row < 256) :
    s.setCursor col row = { s with _i2cPort := s._i2cPort ++
      [WireCall.beginTransmission s._i2cAddr,
       WireCall.write 0xFE,
       WireCall.write ((0x80 ||| (col + [0x00, 0x40, 0x14, 0x54].getD (min row 3) 0)) % 256),
       WireCall.endTransmission] } :=
  setCursor_eq s col row hrow

theorem setCursor_frame_witness :
    sample.setCursor 200 1 = { sample with _i2cPort :=
      [WireCall.beginTransmission 0x72, WireCall.write 0xFE, WireCall.write 0x88,
       WireCall.endTransmission] } :=
  setCursor_frame sample 200 1 (by decide)

/-! ## C16 -/

/-- The loop of `createChar` on a bitmap of eight bytes sends them as they are. -/
theorem createChar_loop (port : TwoWire) (charmap : List Nat)
    (hlen : charmap.length = 8) (hb : ∀ x ∈ charmap, x < 256) :
    (List.range 8).foldl (fun port i => port.write (charmap.getD i 0)) port =
      port ++ charmap.map WireCall.write := by
  match charmap, hlen, hb with
  | [m0, m1, m2, m3, m4, m5, m6, m7], _, hb =>
    have h0 := hb m0 (by simp)
    have h1 := hb m1 (by simp)
    have h2 := hb m2 (by simp)
    have h3 := hb m3 (by simp)
    have h4 := hb m4 (by simp)
    have h5 := hb m5 (by simp)
    have h6 := hb m6 (by simp)
    have h7 := hb m7 (by simp)
    simp [List.range_succ, TwoWire.write, toByte_of_lt, h0, h1, h2, h3, h4, h5, h6, h7]

/-- The opcode `27 + (location & 7)` lies in `27..34`. -/
theorem and_seven_le (n : Nat) : n &&& 7 ≤ 7 := Nat.and_le_right

/-- C16: for every `location` and every bitmap of eight bytes, `createChar`
appends one transaction with exactly ten bytes: `0x7C`, `27 + (location & 7)`
and the eight bitmap bytes unchanged and in order.  The create opcode lies in
`27..34`, the opcode `35 + (location & 7)` that `writeChar` sends lies in
`35..42`, so no create opcode is a write opcode. -/
theorem createChar_spec (s : QwiicSerLCD) (location : Nat) (charmap : List Nat)
    (hlen : charmap.length = 8) (hb : ∀ x ∈ charmap, x < 256) :
    s.createChar location charmap = { s with _i2cPort := s._i2cPort ++
      ([WireCall.beginTransmission s._i2cAddr,
        WireCall.write 0x7C, WireCall.write (27 + (location &&& 7))] ++
        charmap.map WireCall.write ++ [WireCall.endTransmission]) } ∧
    ([WireCall.write 0x7C, WireCall.write (27 + (location &&& 7))] ++
        charmap.map WireCall.write).length = 10 ∧
    (27 ≤ 27 + (location &&& 7) ∧ 27 + (location &&& 7) ≤ 34) ∧
    s.writeChar location = { s with _i2cPort := s._i2cPort ++
      [WireCall.beginTransmission s._i2cAddr,
       WireCall.write 0x7C, WireCall.write (35 + (location &&& 7)),
       WireCall.endTransmission] } ∧
    (35 ≤ 35 + (location &&& 7) ∧ 35 + (location &&& 7) ≤ 42) ∧
    (∀ other : Nat, 27 + (location &&& 7) ≠ 35 + (other &&& 7)) := by
  have h7 := and_seven_le location
  have hloc : toByte (location &&& 7) = location &&& 7 := toByte_of_lt (by omega)
  refine ⟨?_, ?_, ⟨by omega, by omega⟩, ?_, ⟨by omega, by omega⟩, ?_⟩
  · simp only [createChar]
    rw [createChar_loop _ charmap hlen hb]
    simp only [hloc, TwoWire.beginTransmission, TwoWire.write, TwoWire.endTransmission,
      toByte_of_lt (by omega : 27 + (location &&& 7) < 256),
      List.append_assoc, List.singleton_append, List.cons_append, List.nil_append]
    rfl
  · simp [hlen]
  · simp only [writeChar, command, hloc, TwoWire.beginTransmission, TwoWire.write,
      TwoWire.endTransmission, toByte_of_lt (by omega : 35 + (location &&& 7) < 256),
      List.append_assoc, List.singleton_append, List.cons_append, List.nil_append]
    rfl
  · intro other
    have := and_seven_le other
    omega

theorem createChar_spec_witness :
    sample.createChar 9 [0, 10, 31, 31, 14, 4, 0, 255] = { sample with _i2cPort :=
      [WireCall.beginTransmission 0x72,
       WireCall.write 0x7C, WireCall.write 28,
       WireCall.write 0, WireCall.write 10, WireCall.write 31, WireCall.write 31,
       WireCall.write 14, WireCall.write 4, WireCall.write 0, WireCall.write 255,
       WireCall.endTransmission] } :=
  (createChar_spec sample 9 [0, 10, 31, 31, 14, 4, 0, 255] (by decide) (by decide)).1

/-! ## C17 -/

set_option maxRecDepth 8192 in
/-- The two display-control payloads of `setBacklight` for a flag byte `d`. -/
theorem backlight_payloads : ∀ d, d < 256 →
    toByte (LCD_DISPLAYCONTROL ||| toByte (d &&& bitNot LCD_DISPLAYON)) =
      LCD_DISPLAYCONTROL ||| (d &&& 0xFB) ∧
    toByte (LCD_DISPLAYCONTROL |||
        toByte (toByte (d &&& bitNot LCD_DISPLAYON) ||| LCD_DISPLAYON)) =
      LCD_DISPLAYCONTROL ||| (d ||| LCD_DISPLAYON) := by
  decide

/-- The ten bytes of `setBacklight` for byte-sized arguments and flag byte. -/
theorem setBacklight_bytes (s : QwiicSerLCD) (r g b : Nat)
    (hd : s._displayControl < 256) (hr : r < 256) (hg : g < 256) (hb : b < 256) :
    (s.setBacklight r g b)._i2cPort = s._i2cPort ++
      [WireCall.beginTransmission s._i2cAddr,
       WireCall.write 0xFE,
       WireCall.write (LCD_DISPLAYCONTROL ||| (s._displayControl &&& 0xFB)),
       WireCall.write 0x7C, WireCall.write (128 + 29 * r / 255),
       WireCall.write 0x7C, WireCall.write (158 + 29 * g / 255),
       WireCall.write 0x7C, WireCall.write (188 + 29 * b / 255),
       WireCall.write 0xFE,
       WireCall.write (LCD_DISPLAYCONTROL ||| (s._displayControl ||| LCD_DISPLAYON)),
       WireCall.endTransmission] := by
  have h1 := channel_byte 128 (by decide) r hr
  have h2 := channel_byte 158 (by decide) g hg
  have h3 := channel_byte 188 (by decide) b hb
  simp only [Nat.cast_ofNat] at h1 h2 h3
  obtain ⟨p1, p2⟩ := backlight_payloads _ hd
  rw [setBacklight_port, h1, h2, h3, p1, p2,
    toByte_of_lt (by omega : 128 + 29 * r / 255 < 256),
    toByte_of_lt (by omega : 158 + 29 * g / 255 < 256),
    toByte_of_lt (by omega : 188 + 29 * b / 255 < 256)]

/-- C17: for a cached `displayControl` byte `d` and bytes `r`, `g`, `b`,
`setBacklight r g b` appends to the port a single transaction at the cached
address with exactly ten bytes in this order: `0xFE`,
`LCD_DISPLAYCONTROL | (d & 0xFB)` (display-on cleared), `0x7C`, red, `0x7C`,
green, `0x7C`, blue, `0xFE`, `LCD_DISPLAYCONTROL | (d | LCD_DISPLAYON)`
(display-on set), with the scaled channel bytes of C11. -/
theorem setBacklight_ten_bytes (s : QwiicSerLCD) (r g b : Nat)
    (hd : s._displayControl < 256) (hr : r < 256) (hg : g < 256) (hb : b < 256) :
    (s.setBacklight r g b)._i2cPort = s._i2cPort ++
      [WireCall.beginTransmission s._i2cAddr,
       WireCall.write 0xFE,
       WireCall.write (LCD_DISPLAYCONTROL ||| (s._displayControl &&& 0xFB)),
       WireCall.write 0x7C, WireCall.write (128 + 29 * r / 255),
       WireCall.write 0x7C, WireCall.write (158 + 29 * g / 255),
       WireCall.write 0x7C, WireCall.write (188 + 29 * b / 255),
       WireCall.write 0xFE,
       WireCall.write (LCD_DISPLAYCONTROL ||| (s._displayControl ||| LCD_DISPLAYON)),
       WireCall.endTransmission] :=
  setBacklight_bytes s r g b hd hr hg hb

theorem setBacklight_ten_bytes_witness :
    (sample.cursor.setBacklight 255 0 128)._i2cPort = sample.cursor._i2cPort ++
      [WireCall.beginTransmission 0x72,
       WireCall.write 0xFE, WireCall.write 0x0A,
       WireCall.write 0x7C, WireCall.write 157,
       WireCall.write 0x7C, WireCall.write 158,
       WireCall.write 0x7C, WireCall.write 202,
       WireCall.write 0xFE, WireCall.write 0x0E,
       WireCall.endTransmission] :=
  setBacklight_ten_bytes sample.cursor 255 0 128 (by decide) (by decide) (by decide) (by decide)

/-! ## C18 -/

/-- C18: for every value of `row` (so for the 256 values of a `byte`) the
index that `setCursor` has after its two clamps is below the length 4 of
`row_offsets`: the lookup reads an entry of the table, the entry at that
index, and never goes out of bounds. -/
theorem setCursor_index_in_bounds (s : QwiicSerLCD) (col row : Nat) :
    toByte (min (toByte (max 0 row)) (MAX_ROWS - 1)) ≤ 3 ∧
    ∃ h : toByte (min (toByte (max 0 row)) (MAX_ROWS - 1)) < row_offsets.length,
      s.setCursor col row = s.specialCommand (toByte (LCD_SETDDRAMADDR |||
        (col + row_offsets.get ⟨toByte (min (toByte (max 0 row)) (MAX_ROWS - 1)), h⟩))) := by
  have hle : toByte (min (toByte (max 0 row)) (MAX_ROWS - 1)) ≤ 3 := by
    have h3 : min (toByte (max 0 row)) (MAX_ROWS - 1) ≤ 3 := Nat.min_le_right _ _
    rw [toByte_of_lt (by omega)]
    exact h3
  have hlt : toByte (min (toByte (max 0 row)) (MAX_ROWS - 1)) < row_offsets.length :=
    Nat.lt_of_le_of_lt hle (by decide)
  refine ⟨hle, hlt, ?_⟩
  simp only [setCursor]
  rw [List.getD_eq_getElem _ 0 hlt]
  rfl

/-! ## C19 -/

set_option maxRecDepth 8192 in
/-- The payload of `setCursor` for a DDRAM address below 128. -/
theorem ddram_payload : ∀ x, x < 128 → toByte (LCD_SETDDRAMADDR ||| x) = 128 + x := by
  decide

/-- C19: on the grid of 20 columns and 4 rows `setCursor` is injective: the
calls for two positions send the same payload (their port histories are equal)
only if the positions are the same.  The bound on the column is needed:
`setCursor 20 0` and `setCursor 0 2` send the same payload. -/
theorem setCursor_injective (s : QwiicSerLCD) (col row col' row' : Nat)
    (hc : col < 20) (hr : row < 4) (hc' : col' < 20) (hr' : row' < 4) :
    ((s.setCursor col row)._i2cPort = (s.setCursor col' row')._i2cPort ↔
      (col = col' ∧ row = row')) ∧
    s.setCursor 20 0 = s.setCursor 0 2 := by
  refine ⟨⟨fun heq => ?_, fun h => by rw [h.1, h.2]⟩, rfl⟩
  have e1 := (setCursor_eq s col row (by omega))
  have e2 := (setCursor_eq s col' row' (by omega))
  rw [e1, e2] at heq
  simp only [List.append_cancel_left_eq, List.cons.injEq, WireCall.write.injEq, true_and,
    and_true] at heq
  have hp : ∀ c r : Nat, c < 20 → r < 4 →
      (0x80 ||| (c + [0x00, 0x40, 0x14, 0x54].getD (min r 3) 0)) % 256 =
        128 + (c + [0x00, 0x40, 0x14, 0x54].getD r 0) := by
    intro c r hc hr
    rw [Nat.min_eq_left (by omega : r ≤ 3)]
    have : c + [0x00, 0x40, 0x14, 0x54].getD r 0 < 128 := by
      interval_cases r <;> simp <;> omega
    exact ddram_payload _ this
  rw [hp col row hc hr, hp col' row' hc' hr'] at heq
  interval_cases row <;> interval_cases row' <;> simp at heq <;> omega

theorem setCursor_injective_witness :
    ((sample.setCursor 19 0)._i2cPort = (sample.setCursor 0 2)._i2cPort ↔
      (19 = 0 ∧ 0 = 2)) ∧
    sample.setCursor 20 0 = sample.setCursor 0 2 :=
  setCursor_injective sample 19 0 0 2 (by decide) (by decide) (by decide) (by decide)

/-! ## C12 -/

theorem byte_args_succ (x y : Option Nat) (more b : Nat) :
    Decoded.byte ⟨Framing.args (more + 1), x, y⟩ b = ⟨Framing.args more, x, y⟩ := rfl

theorem tx_special (s t : QwiicSerLCD) (hp : t._i2cPort = s._i2cPort)
    (ha : t._i2cAddr = s._i2cAddr) (c : Nat) : OneTransaction s (t.specialCommand c) := by
  refine ⟨[0xFE, toByte c], ?_⟩
  rw [specialCommand_eq]
  simp [hp, ha]

theorem tx_command (s : QwiicSerLCD) (c : Nat) : OneTransaction s (s.command c) := by
  refine ⟨[toByte SETTING_COMMAND, toByte c], ?_⟩
  simp [command, TwoWire.beginTransmission, TwoWire.write, TwoWire.endTransmission]

theorem map_write_pairs (c : Nat) : ∀ n : Nat,
    (List.replicate n [WireCall.write 0xFE, WireCall.write c]).flatten =
      ((List.replicate n [0xFE, c]).flatten).map WireCall.write
  | 0 => rfl
  | n + 1 => by
      rw [List.replicate_succ, List.flatten_cons, List.replicate_succ, List.flatten_cons,
        List.map_append, map_write_pairs c n]
      rfl

theorem tx_count (s : QwiicSerLCD) (c n : Nat) :
    OneTransaction s (s.specialCommand_count c n) := by
  refine ⟨(List.replicate n [0xFE, toByte c]).flatten, ?_⟩
  simp only [specialCommand_count, TwoWire.beginTransmission, TwoWire.endTransmission,
    special_loop, map_write_pairs, List.append_assoc]

/-- The loop of `write_buffer` only writes bytes, whatever the length asked. -/
theorem write_loop_writes : ∀ (size : Nat) (buffer : List Nat) (port : TwoWire) (n : Nat),
    ∃ bytes : List Nat,
      (write_loop size buffer port n).1 = port ++ bytes.map WireCall.write
  | 0, _, port, _ => ⟨[], by simp [write_loop]⟩
  | size + 1, buffer, port, n => by
      obtain ⟨bytes, h⟩ := write_loop_writes size buffer.tail
        (port.write (buffer.headD 0)) (n + 1)
      refine ⟨toByte (buffer.headD 0) :: bytes, ?_⟩
      simp only [TwoWire.write] at h
      simp only [write_loop, h, TwoWire.write, List.map_cons, List.append_assoc,
        List.singleton_append]

theorem tx_write_buffer (s : QwiicSerLCD) (buffer : List Nat) (size : Nat) :
    OneTransaction s (s.write_buffer buffer size).1 := by
  obtain ⟨bytes, h⟩ := write_loop_writes size buffer
    (s._i2cPort.beginTransmission s._i2cAddr) 0
  refine ⟨bytes, ?_⟩
  simp only [TwoWire.beginTransmission] at h
  simp only [write_buffer, h, TwoWire.beginTransmission, TwoWire.endTransmission,
    List.append_assoc]

theorem tx_setBacklight (s : QwiicSerLCD) (r g b : Nat) :
    OneTransaction s (s.setBacklight r g b) := by
  refine ⟨[0xFE,
    toByte (LCD_DISPLAYCONTROL ||| toByte (s._displayControl &&& bitNot LCD_DISPLAYON)),
    0x7C, toByte (toByte (128 + map r 0 255 0 29).toNat),
    0x7C, toByte (toByte (158 + map g 0 255 0 29).toNat),
    0x7C, toByte (toByte (188 + map b 0 255 0 29).toNat),
    0xFE,
    toByte (LCD_DISPLAYCONTROL |||
      toByte (toByte (s._displayControl &&& bitNot LCD_DISPLAYON) ||| LCD_DISPLAYON))], ?_⟩
  rw [setBacklight_port]
  rfl

/-- Every operation but `write_str` on the null pointer makes one transaction. -/
theorem tx_step (s : QwiicSerLCD) (op : Op) (hop : op ≠ Op.write_str none) :
    OneTransaction s (op.run s) := by
  cases op with
  | init =>
      exact ⟨[toByte SPECIAL_COMMAND, toByte (LCD_DISPLAYCONTROL ||| s._displayControl),
        toByte SPECIAL_COMMAND, toByte (LCD_ENTRYMODESET ||| s._displayMode),
        toByte SETTING_COMMAND, toByte CLEAR_COMMAND],
        by simp [Op.run, init, TwoWire.beginTransmission, TwoWire.write,
          TwoWire.endTransmission]⟩
  | command c => exact tx_command s c
  | specialCommand c => exact tx_special s s rfl rfl c
  | specialCommand_count c n => exact tx_count s c n
  | clear => exact tx_command s _
  | home => exact tx_special s s rfl rfl _
  | setCursor col row => exact tx_special s s rfl rfl _
  | createChar location charmap =>
      exact ⟨[toByte SETTING_COMMAND, toByte (27 + toByte (location &&& 7)),
        toByte (charmap.getD 0 0), toByte (charmap.getD 1 0), toByte (charmap.getD 2 0),
        toByte (charmap.getD 3 0), toByte (charmap.getD 4 0), toByte (charmap.getD 5 0),
        toByte (charmap.getD 6 0), toByte (charmap.getD 7 0)],
        by simp [Op.run, createChar, List.range_succ, TwoWire.beginTransmission,
          TwoWire.write, TwoWire.endTransmission]⟩
  | writeChar location => exact tx_command s _
  | write b =>
      exact ⟨[toByte b], by simp [Op.run, QwiicSerLCD.write, TwoWire.beginTransmission,
        TwoWire.write, TwoWire.endTransmission]⟩
  | write_buffer buffer size => exact tx_write_buffer s buffer size
  | write_str str =>
      cases str with
      | none => exact absurd rfl hop
      | some str => exact tx_write_buffer s str (strlen str)
  | noDisplay => exact tx_special s _ rfl rfl _
  | display => exact tx_special s _ rfl rfl _
  | noCursor => exact tx_special s _ rfl rfl _
  | cursor => exact tx_special s _ rfl rfl _
  | noBlink => exact tx_special s _ rfl rfl _
  | blink => exact tx_special s _ rfl rfl _
  | scrollDisplayLeft => exact tx_special s s rfl rfl _
  | scrollDisplayLeft_count n => exact tx_count s _ n
  | scrollDisplayRight => exact tx_special s s rfl rfl _
  | scrollDisplayRight_count n => exact tx_count s _ n
  | moveCursorLeft => exact tx_special s s rfl rfl _
  | moveCursorLeft_count n => exact tx_count s _ n
  | moveCursorRight => exact tx_special s s rfl rfl _
  | moveCursorRight_count n => exact tx_count s _ n
  | setBacklight r g b => exact tx_setBacklight s r g b
  | setBacklight_rgb rgb => exact tx_setBacklight s _ _ _
  | leftToRight => exact tx_special s _ rfl rfl _
  | rightToLeft => exact tx_special s _ rfl rfl _
  | autoscroll => exact tx_special s _ rfl rfl _
  | noAutoscroll => exact tx_special s _ rfl rfl _
  | setContrast v =>
      exact ⟨[toByte SETTING_COMMAND, toByte CONTRAST_COMMAND, toByte v],
        by simp [Op.run, setContrast, TwoWire.beginTransmission, TwoWire.write,
          TwoWire.endTransmission]⟩
  | setAddress a =>
      exact ⟨[toByte SETTING_COMMAND, toByte ADDRESS_COMMAND, toByte a],
        by simp [Op.run, setAddress, TwoWire.beginTransmission, TwoWire.write,
          TwoWire.endTransmission]⟩

theorem bracketed_append : ∀ (p : TwoWire) (inside : Bool) (q : TwoWire),
    bracketed inside p = true → bracketed false q = true →
    bracketed inside (p ++ q) = true
  | [], inside, q, hp, hq => by
      cases inside with
      | false => simpa using hq
      | true => simp [bracketed] at hp
  | c :: rest, inside, q, hp, hq => by
      cases inside <;> cases c <;> simp only [bracketed, List.cons_append] at hp ⊢ <;>
        first
          | exact bracketed_append rest _ q hp hq
          | exact Bool.noConfusion hp

theorem bracketed_writes : ∀ bytes : List Nat,
    bracketed true (bytes.map WireCall.write ++ [WireCall.endTransmission]) = true
  | [] => rfl
  | b :: rest => by
      simp only [List.map_cons, List.cons_append, bracketed]
      exact bracketed_writes rest

theorem bracketed_tx (a : Nat) (bytes : List Nat) :
    bracketed false ([WireCall.beginTransmission a] ++ bytes.map WireCall.write ++
      [WireCall.endTransmission]) = true := by
  simp only [List.singleton_append, List.cons_append, bracketed]
  exact bracketed_writes bytes

theorem bracketed_step (s : QwiicSerLCD) (op : Op)
    (h : bracketed false s._i2cPort = true) : bracketed false (op.run s)._i2cPort = true := by
  by_cases hop : op = Op.write_str none
  · subst hop
    exact h
  · obtain ⟨bytes, hb⟩ := tx_step s op hop
    rw [hb]
    exact bracketed_append _ _ _ h (bracketed_tx _ bytes)

theorem bracketed_run : ∀ (ops : List Op) (s : QwiicSerLCD),
    bracketed false s._i2cPort = true → bracketed false (run ops s)._i2cPort = true
  | [], _, h => h
  | op :: rest, s, h => bracketed_run rest (op.run s) (bracketed_step s op h)

/-- C20: every operation other than `begin`, from every state, either makes
no call on the port at all, which only `write_str` on the null pointer does,
or makes exactly one `beginTransmission` at the address cached when it was
called, then byte writes only, then one `endTransmission`.  Hence a port
history in which every write lies inside a transaction and no transaction is
open stays so under every sequence of operations; and an operation issued
after `setAddress a` opens its transaction at the new address `a`. -/
theorem transaction_discipline (s : QwiicSerLCD) (op : Op) (ops : List Op) (a : Nat) :
    (op = Op.write_str none → (op.run s)._i2cPort = s._i2cPort) ∧
    (op ≠ Op.write_str none → OneTransaction s (op.run s)) ∧
    (bracketed false s._i2cPort = true → bracketed false (run ops s)._i2cPort = true) ∧
    (op ≠ Op.write_str none →
      ∃ bytes : List Nat, (op.run (s.setAddress a))._i2cPort =
        (s.setAddress a)._i2cPort ++
          ([WireCall.beginTransmission a] ++ bytes.map WireCall.write ++
            [WireCall.endTransmission])) :=
  ⟨fun h => by subst h; rfl,
   fun h => tx_step s op h,
   fun h => bracketed_run ops s h,
   fun h => tx_step (s.setAddress a) op h⟩

theorem transaction_discipline_witness :
    ((Op.write_str none).run sample)._i2cPort = sample._i2cPort ∧
    OneTransaction sample ((Op.setCursor 3 1).run sample) ∧
    bracketed false
      (run [Op.setAddress 0x73, Op.write 65, Op.write_str none, Op.setBacklight_rgb 0xFF00]
        sample)._i2cPort = true ∧
    (∃ bytes : List Nat, ((Op.setCursor 3 1).run (sample.setAddress 0x73))._i2cPort =
        (sample.setAddress 0x73)._i2cPort ++
          ([WireCall.beginTransmission 0x73] ++ bytes.map WireCall.write ++
            [WireCall.endTransmission])) :=
  ⟨(transaction_discipline sample (Op.write_str none) [] 0).1 rfl,
   (transaction_discipline sample (Op.setCursor 3 1) [] 0).2.1 (by decide),
   (transaction_discipline sample Op.init
      [Op.setAddress 0x73, Op.write 65, Op.write_str none, Op.setBacklight_rgb 0xFF00]
      0).2.2.1 rfl,
   (transaction_discipline sample (Op.setCursor 3 1) [] 0x73).2.2.2 (by decide)⟩

end SerLCD
